/-
  Verification of the pyLoad core against its specification.

  Shallow embedding of:
    src/pyload/core/network/http/http_chunk.py   (ChunkInfo)
    src/pyload/core/managers/captcha_manager.py  (CaptchaTask, CaptchaManager)
    src/pyload/core/managers/thread_manager.py   (ThreadManager)
    src/pyload/core/api/__init__.py              (Api.pollResults)

  Python strings are modelled as `List Char`, Python ints as `Int`
  (loop counters as `Nat`), Python dicts as association lists with
  unique keys, and raising code as `Except PyErr`.
-/
import Mathlib

namespace PyLoad

/-- The Python exceptions the embedded code can raise. -/
inductive PyErr where
  | typeError
  | valueError
  | keyError
  | indexError
  | wrongFormat
  | ioError
  deriving DecidableEq

/-! ### Decimal rendering and parsing (models Python `str(int)` / `int(str)`) -/

/-- Big-endian decimal digits of `n`; `fuel` bounds the recursion
(`fuel = n` suffices since `n / 10 < n` for `n > 0`). -/
def natCharsAux : Nat → Nat → List Char
  | 0, _ => []
  | fuel + 1, n => if n = 0 then [] else natCharsAux fuel (n / 10) ++ [Nat.digitChar (n % 10)]

/-- Models Python `str(n)` for a non-negative integer `n`. -/
def natChars (n : Nat) : List Char :=
  if n = 0 then ['0'] else natCharsAux n n

/-- Models Python `str(i)` for an arbitrary integer `i`. -/
def intChars (i : Int) : List Char :=
  if i < 0 then '-' :: natChars i.natAbs else natChars i.toNat

/-- Value of a big-endian digit string. -/
def charsToNat (l : List Char) : Nat :=
  l.foldl (fun a c => a * 10 + (c.toNat - 48)) 0

/-- Digit-string parser used by `pyInt`. -/
def pyNatDigits (l : List Char) : Except PyErr Nat :=
  if l ≠ [] ∧ l.all (fun c => c.isDigit) then .ok (charsToNat l) else .error .valueError

/-- Models Python `int(s)`: an optional sign followed by decimal digits;
anything else raises `ValueError`.  (Surrounding whitespace and
underscore separators, which Python also accepts, never occur in the
strings this program parses and are not modelled.) -/
def pyInt (l : List Char) : Except PyErr Int :=
  match l with
  | [] => .error .valueError
  | c :: rest =>
    if c = '-' then (pyNatDigits rest).map (fun n => -(n : Int))
    else if c = '+' then (pyNatDigits rest).map (fun n => (n : Int))
    else (pyNatDigits (c :: rest)).map (fun n => (n : Int))

/-- Models Python `s.split("-")`. -/
def splitOnDash : List Char → List (List Char)
  | [] => [[]]
  | c :: rest =>
    if c = '-' then [] :: splitOnDash rest
    else
      match splitOnDash rest with
      | [] => [[c]]
      | p :: ps => (c :: p) :: ps

/-- Models the Python slice `s[:-1]`. -/
def pySub1 (l : List Char) : List Char := l.dropLast

/-- Models the Python slice `s[1:-1]`. -/
def pySub1m1 (l : List Char) : List Char := (l.drop 1).dropLast

/-! ### ChunkInfo (http_chunk.py lines 18-105) -/

/-- `ChunkInfo.__init__` state: `name`, `size`, `resume`, and the list of
`(chunk-file-name, (start, end))` entries. -/
structure ChunkInfo where
  name : List Char
  size : Int
  resume : Bool
  chunks : List (List Char × Int × Int)
  deriving DecidableEq

/-- `ChunkInfo(name)` constructor (http_chunk.py lines 19-23). -/
def ChunkInfo.init (name : List Char) : ChunkInfo :=
  { name := name, size := 0, resume := false, chunks := [] }

/-- `ChunkInfo.setSize` (line 32-33); the `int()` coercion is implicit as
the model stores `Int` already. -/
def ChunkInfo.setSize (ci : ChunkInfo) (size : Int) : ChunkInfo :=
  { ci with size := size }

/-- The chunk file name `f"{self.name}.chunk{i}"` (line 48). -/
def chunkFileName (name : List Char) (i : Nat) : List Char :=
  name ++ ".chunk".data ++ natChars i

/-- The loop body of `ChunkInfo.createChunks` (lines 45-49):
`for i in range(total)` with accumulator `current`; the first argument is
the remaining iteration count `total - i`, kept structural so the kernel
can evaluate it. -/
def createChunksGo (name : List Char) (size cs : Int) (total : Nat) :
    Nat → Nat → Int → List (List Char × Int × Int)
  | 0, _, _ => []
  | rem + 1, i, current =>
      (chunkFileName name i, (current, if i = total - 1 then size - 1 else current + cs))
        :: createChunksGo name size cs total rem (i + 1) (current + cs + 1)

/-- `ChunkInfo.createChunks` (lines 41-49): `self.clear()` then the range
loop with `chunk_size = self.size // chunks` (Python floor division). -/
def ChunkInfo.createChunks (ci : ChunkInfo) (chunks : Nat) : ChunkInfo :=
  { ci with chunks := createChunksGo ci.name ci.size (Int.fdiv ci.size chunks) chunks chunks 0 0 }

lemma createChunksGo_length (name : List Char) (size cs : Int) (total : Nat) :
    ∀ rem i current, (createChunksGo name size cs total rem i current).length = rem := by
  intro rem
  induction rem with
  | zero => intro i current; rfl
  | succ n ih => intro i current; simp [createChunksGo, ih]

lemma createChunksGo_get? (name : List Char) (size cs : Int) (total : Nat) :
    ∀ j rem i current, j < rem →
      (createChunksGo name size cs total rem i current).get? j =
        some (chunkFileName name (i + j),
          (current + j * (cs + 1),
           if i + j = total - 1 then size - 1 else current + j * (cs + 1) + cs)) := by
  intro j
  induction j with
  | zero =>
    intro rem i current hj
    match rem, hj with
    | rem + 1, _ => simp [createChunksGo]
  | succ j ih =>
    intro rem i current hj
    match rem, hj with
    | rem + 1, hj =>
      have hj' : j < rem := Nat.lt_of_succ_lt_succ hj
      have h := ih rem (i + 1) (current + cs + 1) hj'
      simp only [createChunksGo, List.get?_cons_succ, h]
      rw [show i + 1 + j = i + (j + 1) from by omega,
        show current + cs + 1 + (j : Int) * (cs + 1)
            = current + ((j + 1 : Nat) : Int) * (cs + 1) from by push_cast; ring]

/-- Closed form of the chunk list: entry `i` of `createChunks` holds the
range `[i*(c+1), i*(c+1)+c]`, except the last entry which ends at `size-1`
(`c = size // chunks`). -/
lemma createChunks_get? (ci : ChunkInfo) (K : Nat) (i : Nat) (hi : i < K) :
    ((ci.createChunks K).chunks).get? i =
      some (chunkFileName ci.name i,
        ((i : Int) * (Int.fdiv ci.size K + 1),
         if i = K - 1 then ci.size - 1
         else (i : Int) * (Int.fdiv ci.size K + 1) + Int.fdiv ci.size K)) := by
  have h := createChunksGo_get? ci.name ci.size (Int.fdiv ci.size K) K i K 0 0 hi
  simpa [ChunkInfo.createChunks] using h

lemma createChunks_length (ci : ChunkInfo) (K : Nat) :
    ((ci.createChunks K).chunks).length = K := by
  simp [ChunkInfo.createChunks, createChunksGo_length]

/-- Claim C1, counterexample: for S = 10, K = 2 the code produces chunk 0
with range `(0, 5)`, while the claimed formula `[i*(S/K), (i+1)*(S/K)-1]`
demands `(0, 4)`: non-final chunks span `S/K + 1` bytes, not `S/K`. -/
theorem createChunks_spec_formula_false :
    (((ChunkInfo.init "f".data).setSize 10).createChunks 2).chunks.get? 0
      = some ("f.chunk0".data, (0, 5))
    ∧ ((0 : Int), (5 : Int))
        ≠ (0 * Int.fdiv 10 2, (0 + 1) * Int.fdiv 10 2 - 1) := by
  decide

/-- Claim C1, amended: for total size S > 0 and K ≥ 1 chunks,
`createChunks` produces exactly K chunks; with c = S // K, chunk i covers
the inclusive range `[i*(c+1), i*(c+1)+c]` for i < K-1, and the last
chunk covers `[(K-1)*(c+1), S-1]`. -/
theorem createChunks_layout (ci : ChunkInfo) (K : Nat)
    (hS : 0 < ci.size) (hK : 1 ≤ K) :
    ((ci.createChunks K).chunks).length = K ∧
    ∀ i : Nat, i < K →
      ((ci.createChunks K).chunks).get? i =
        some (chunkFileName ci.name i,
          ((i : Int) * (Int.fdiv ci.size K + 1),
           if i = K - 1 then ci.size - 1
           else (i : Int) * (Int.fdiv ci.size K + 1) + Int.fdiv ci.size K)) :=
  ⟨createChunks_length ci K, fun i hi => createChunks_get? ci K i hi⟩

/-- Witness for `createChunks_layout` at S = 10, K = 2: the second chunk
is `(6, 9)`. -/
theorem createChunks_layout_witness :
    (0 : Int) < (((ChunkInfo.init "f".data).setSize 10)).size
    ∧ ((((ChunkInfo.init "f".data).setSize 10).createChunks 2).chunks).get? 1
        = some ("f.chunk1".data, (6, 9)) := by
  refine ⟨by decide, ?_⟩
  have h := (createChunks_layout ((ChunkInfo.init "f".data).setSize 10) 2
    (by decide) (by decide)).2 1 (by decide)
  rw [h]
  decide

/-- Claim C2, confirmed: for S > 0 and K ≥ 1 the chunk ranges cover every
byte offset in `[0, S)` (hence offset 0 and offset S-1 are covered), and
each chunk after the first starts exactly one byte after the previous
chunk's end. -/
theorem createChunks_coverage (ci : ChunkInfo) (K : Nat)
    (hS : 0 < ci.size) (hK : 1 ≤ K) :
    (∀ o : Int, 0 ≤ o → o < ci.size →
      ∃ c ∈ (ci.createChunks K).chunks, c.2.1 ≤ o ∧ o ≤ c.2.2) ∧
    (∀ i : Nat, i + 1 < K → ∀ a b,
      ((ci.createChunks K).chunks).get? i = some a →
      ((ci.createChunks K).chunks).get? (i + 1) = some b →
      b.2.1 = a.2.2 + 1) := by
  have hc : 0 ≤ Int.fdiv ci.size K :=
    Int.fdiv_nonneg (le_of_lt hS) (Int.ofNat_nonneg K)
  set c : Int := Int.fdiv ci.size K with hcdef
  set cn : Nat := c.toNat with hcndef
  have hcn : (cn : Int) = c := Int.toNat_of_nonneg hc
  constructor
  · intro o ho hoS
    set onn : Nat := o.toNat with honndef
    have hon : (onn : Int) = o := Int.toNat_of_nonneg ho
    by_cases hcase : onn < (K - 1) * (cn + 1)
    · -- o falls inside a non-final chunk
      set i : Nat := onn / (cn + 1) with hidef
      have hiK1 : i < K - 1 := (Nat.div_lt_iff_lt_mul (Nat.succ_pos cn)).mpr hcase
      have hiK : i < K := by omega
      have hlo : i * (cn + 1) ≤ onn := Nat.div_mul_le_self onn (cn + 1)
      have hmod := Nat.div_add_mod onn (cn + 1)
      have hmodlt : onn % (cn + 1) < cn + 1 := Nat.mod_lt onn (Nat.succ_pos cn)
      have hhi : onn ≤ i * (cn + 1) + cn := by
        rw [hidef]
        set A := onn / (cn + 1) * (cn + 1) with hA
        have : (cn + 1) * (onn / (cn + 1)) = A := by rw [hA]; ring
        omega
      have hentry := createChunks_get? ci K i hiK
      refine ⟨_, List.get?_mem hentry, ?_, ?_⟩
      · show (i : Int) * (c + 1) ≤ o
        have : (i : Int) * (c + 1) = ((i * (cn + 1) : Nat) : Int) := by
          rw [← hcn]; push_cast; ring
        rw [this, ← hon]
        exact_mod_cast hlo
      · show o ≤ if i = K - 1 then ci.size - 1 else (i : Int) * (c + 1) + c
        rw [if_neg (by omega)]
        have : (i : Int) * (c + 1) + c = ((i * (cn + 1) + cn : Nat) : Int) := by
          rw [← hcn]; push_cast; ring
        rw [this, ← hon]
        exact_mod_cast hhi
    · -- o falls inside the final chunk
      have hiK : K - 1 < K := by omega
      have hentry := createChunks_get? ci K (K - 1) hiK
      refine ⟨_, List.get?_mem hentry, ?_, ?_⟩
      · show ((K - 1 : Nat) : Int) * (c + 1) ≤ o
        have : ((K - 1 : Nat) : Int) * (c + 1) = (((K - 1) * (cn + 1) : Nat) : Int) := by
          rw [← hcn]; push_cast; ring
        rw [this, ← hon]
        exact_mod_cast Nat.le_of_not_lt hcase
      · show o ≤ if K - 1 = K - 1 then ci.size - 1 else _
        rw [if_pos rfl]
        omega
  · intro i hi a b ha hb
    have hai := createChunks_get? ci K i (by omega)
    have hbi := createChunks_get? ci K (i + 1) hi
    rw [hai] at ha
    rw [hbi] at hb
    have ha' := Option.some.inj ha
    have hb' := Option.some.inj hb
    rw [← ha', ← hb']
    show ((i + 1 : Nat) : Int) * (c + 1)
        = (if i = K - 1 then ci.size - 1 else (i : Int) * (c + 1) + c) + 1
    rw [if_neg (by omega)]
    push_cast
    ring

/-- Witness for `createChunks_coverage` at S = 7, K = 3, offset o = 6. -/
theorem createChunks_coverage_witness :
    (0 : Int) ≤ 6 ∧ (6 : Int) < (((ChunkInfo.init "g".data).setSize 7)).size
    ∧ ∃ c ∈ (((ChunkInfo.init "g".data).setSize 7).createChunks 3).chunks,
        c.2.1 ≤ (6 : Int) ∧ (6 : Int) ≤ c.2.2 := by
  refine ⟨by decide, by decide, ?_⟩
  exact (createChunks_coverage ((ChunkInfo.init "g".data).setSize 7) 3
    (by decide) (by decide)).1 6 (by decide) (by decide)

/-! ### ChunkInfo save / load (http_chunk.py lines 51-91)

The sidecar file is modelled by the list of its lines, each line carrying
its terminating newline, exactly as `write`/`readline` produce and consume
them.  The model is faithful provided the stored names contain no newline
character, which the round-trip claim assumes. -/

/-- The three lines written for the enumerated chunk entry
`ic = (i, (name, (start, end)))` (http_chunk.py lines 56-59). -/
def chunkEntryLines (ic : Nat × (List Char × Int × Int)) : List (List Char) :=
  [('#' :: natChars ic.1 ++ [':', '\n']),
   ('\t' :: "name:".data ++ ic.2.1 ++ ['\n']),
   ('\t' :: "range:".data ++ intChars ic.2.2.1 ++ ['-'] ++ intChars ic.2.2.2 ++ ['\n'])]

/-- `ChunkInfo.save` (lines 51-59): the lines written to
`<name>.chunks`. -/
def ChunkInfo.save (ci : ChunkInfo) : List (List Char) :=
  ("name:".data ++ ci.name ++ ['\n'])
    :: ("size:".data ++ intChars ci.size ++ ['\n'])
    :: ci.chunks.enum.flatMap chunkEntryLines

/-- One round of the `ChunkInfo.load` while-loop after the skip line
(lines 81-89): `[1:-1]` slicing, the prefix checks, `range[6:].split("-")`
and the two `int()` conversions; `tail` is the parse of the remaining
lines (the missing-index case is Python's `IndexError` on `range[1]`). -/
def loadChunkEntry (nameLine rangeLine : List Char)
    (tail : Except PyErr (List (List Char × Int × Int))) :
    Except PyErr (List (List Char × Int × Int)) :=
  let nm := pySub1m1 nameLine
  let rg := pySub1m1 rangeLine
  if "name:".data.isPrefixOf nm && "range:".data.isPrefixOf rg then
    match (splitOnDash (rg.drop 6)).get? 0, (splitOnDash (rg.drop 6)).get? 1 with
    | some p0, some p1 => do
        let a ← pyInt p0
        let b ← pyInt p1
        let t ← tail
        pure ((nm.drop 5, a, b) :: t)
    | _, _ => .error .indexError
  else .error .wrongFormat

/-- The `while True` loop of `ChunkInfo.load` (lines 78-89): each round
reads a skip line (`#i:`), breaking when `readline()` is falsy (end of
file or empty line), then a name line and a range line (`readline()` past
the end of file yields the falsy `""`). -/
def loadChunksLoop : List (List Char) → Except PyErr (List (List Char × Int × Int))
  | [] => .ok []
  | skip :: rest =>
    if skip = [] then .ok []
    else
      match rest with
      | [] => loadChunkEntry [] [] (.ok [])
      | [nameLine] => loadChunkEntry nameLine [] (.ok [])
      | nameLine :: rangeLine :: rest2 =>
          loadChunkEntry nameLine rangeLine (loadChunksLoop rest2)

/-- `ChunkInfo.load` (lines 61-91) applied to the sidecar content (the
file-existence check of line 64 is outside the model): header slicing and
prefix checks, `setSize(int(...))`, then the chunk loop. -/
def ChunkInfo.load (lines : List (List Char)) : Except PyErr ChunkInfo :=
  let nameL := pySub1 (lines.headD [])
  let sizeL := pySub1 ((lines.drop 1).headD [])
  if "name:".data.isPrefixOf nameL && "size:".data.isPrefixOf sizeL then do
    let size ← pyInt (sizeL.drop 5)
    let chunks ← loadChunksLoop (lines.drop 2)
    pure { name := nameL.drop 5, size := size, resume := false, chunks := chunks }
  else .error .wrongFormat

/-! ### Round-trip lemmas -/

lemma isPrefixOf_append (l₁ l₂ : List Char) : l₁.isPrefixOf (l₁ ++ l₂) = true := by
  induction l₁ with
  | nil => simp [List.isPrefixOf]
  | cons a as ih => simp [List.isPrefixOf, ih]

lemma pySub1_concat (l : List Char) (c : Char) : pySub1 (l ++ [c]) = l := by
  simp [pySub1]

lemma pySub1m1_concat (a : Char) (l : List Char) (c : Char) :
    pySub1m1 (a :: (l ++ [c])) = l := by
  simp [pySub1m1]

lemma digitChar_isDigit (d : Nat) (h : d < 10) : (Nat.digitChar d).isDigit = true := by
  interval_cases d <;> decide

lemma digitChar_val (d : Nat) (h : d < 10) : (Nat.digitChar d).toNat - 48 = d := by
  interval_cases d <;> decide

lemma natCharsAux_digits :
    ∀ fuel n c, c ∈ natCharsAux fuel n → c.isDigit = true := by
  intro fuel
  induction fuel with
  | zero => intro n c hc; simp [natCharsAux] at hc
  | succ f ih =>
    intro n c hc
    rw [natCharsAux] at hc
    by_cases hn : n = 0
    · simp [hn] at hc
    · rw [if_neg hn] at hc
      rcases List.mem_append.mp hc with h | h
      · exact ih _ c h
      · rcases List.mem_singleton.mp h with rfl
        exact digitChar_isDigit _ (Nat.mod_lt n (by norm_num))

lemma natChars_digits (n : Nat) : ∀ c ∈ natChars n, c.isDigit = true := by
  intro c hc
  unfold natChars at hc
  by_cases hn : n = 0
  · rw [if_pos hn] at hc
    rcases List.mem_singleton.mp hc with rfl
    decide
  · rw [if_neg hn] at hc
    exact natCharsAux_digits n n c hc

lemma natChars_ne_nil (n : Nat) : natChars n ≠ [] := by
  unfold natChars
  by_cases hn : n = 0
  · rw [if_pos hn]; simp
  · rw [if_neg hn]
    match n, hn with
    | f + 1, _ =>
      rw [natCharsAux]
      rw [if_neg (by omega)]
      simp

lemma natCharsAux_val :
    ∀ fuel n a, n ≤ fuel →
      (natCharsAux fuel n).foldl (fun a c => a * 10 + (c.toNat - 48)) a
        = a * 10 ^ (natCharsAux fuel n).length + n := by
  intro fuel
  induction fuel with
  | zero =>
    intro n a h
    have : n = 0 := by omega
    subst this
    simp [natCharsAux]
  | succ f ih =>
    intro n a h
    by_cases hn : n = 0
    · subst hn; simp [natCharsAux]
    · rw [natCharsAux, if_neg hn, List.foldl_append, List.length_append]
      have hdiv : n / 10 ≤ f := by
        have := Nat.div_lt_self (Nat.pos_of_ne_zero hn) (by norm_num : (1:Nat) < 10)
        omega
      rw [ih (n / 10) a hdiv]
      simp only [List.foldl_cons, List.foldl_nil, List.length_singleton]
      rw [digitChar_val (n % 10) (Nat.mod_lt n (by norm_num))]
      rw [pow_succ]
      have hmul : a * (10 ^ (natCharsAux f (n / 10)).length * 10)
          = a * 10 ^ (natCharsAux f (n / 10)).length * 10 := by ring
      omega

lemma charsToNat_natChars (n : Nat) : charsToNat (natChars n) = n := by
  by_cases hn : n = 0
  · subst hn; decide
  · unfold natChars charsToNat
    rw [if_neg hn]
    have := natCharsAux_val n n 0 le_rfl
    simpa using this

lemma pyNatDigits_natChars (n : Nat) : pyNatDigits (natChars n) = .ok n := by
  unfold pyNatDigits
  rw [if_pos ⟨natChars_ne_nil n, by
    rw [List.all_eq_true]; intro c hc; exact natChars_digits n c hc⟩]
  rw [charsToNat_natChars]

lemma pyInt_natChars (n : Nat) : pyInt (natChars n) = .ok (n : Int) := by
  obtain ⟨c, l, hcl⟩ : ∃ c l, natChars n = c :: l := by
    cases h : natChars n with
    | nil => exact absurd h (natChars_ne_nil n)
    | cons c l => exact ⟨c, l, rfl⟩
  have hc : c.isDigit = true := natChars_digits n c (hcl ▸ List.mem_cons_self c l)
  rw [hcl, pyInt]
  rw [if_neg (by rintro rfl; exact absurd hc (by decide)),
    if_neg (by rintro rfl; exact absurd hc (by decide))]
  rw [← hcl, pyNatDigits_natChars]
  rfl

lemma pyInt_intChars_nonneg (i : Int) (h : 0 ≤ i) : pyInt (intChars i) = .ok i := by
  unfold intChars
  rw [if_neg (not_lt.mpr h), pyInt_natChars]
  rw [Int.toNat_of_nonneg h]

lemma natChars_no_dash (n : Nat) : '-' ∉ natChars n := by
  intro h
  exact absurd (natChars_digits n '-' h) (by decide)

lemma intChars_nonneg_no_dash (i : Int) (h : 0 ≤ i) : '-' ∉ intChars i := by
  unfold intChars
  rw [if_neg (not_lt.mpr h)]
  exact natChars_no_dash _

lemma splitOnDash_no_dash (l : List Char) (h : '-' ∉ l) : splitOnDash l = [l] := by
  induction l with
  | nil => rfl
  | cons c cs ih =>
    have hc : ¬ c = '-' := fun hc => h (hc ▸ List.mem_cons_self c cs)
    have ih' := ih (fun hm => h (List.mem_cons_of_mem c hm))
    simp only [splitOnDash, if_neg hc, ih']

lemma splitOnDash_append (l₁ l₂ : List Char) (h₁ : '-' ∉ l₁) :
    splitOnDash (l₁ ++ '-' :: l₂) = l₁ :: splitOnDash l₂ := by
  induction l₁ with
  | nil => simp [splitOnDash]
  | cons c cs ih =>
    have hc : ¬ c = '-' := fun hc => h₁ (hc ▸ List.mem_cons_self c cs)
    have ih' := ih (fun hm => h₁ (List.mem_cons_of_mem c hm))
    show splitOnDash (c :: (cs ++ '-' :: l₂)) = _
    simp only [splitOnDash, if_neg hc]
    rw [ih']

lemma splitOnDash_ne_nil (l : List Char) : splitOnDash l ≠ [] := by
  cases l with
  | nil => simp [splitOnDash]
  | cons c cs =>
    rw [splitOnDash]
    by_cases hc : c = '-'
    · rw [if_pos hc]; simp
    · rw [if_neg hc]
      cases h : splitOnDash cs <;> simp

lemma drop5_name_tag (l : List Char) : ("name:".data ++ l).drop 5 = l := rfl

lemma drop5_size_tag (l : List Char) : ("size:".data ++ l).drop 5 = l := rfl

lemma drop6_range_tag (l : List Char) : ("range:".data ++ l).drop 6 = l := rfl

/-- Parsing the chunk-entry lines of `save` recovers the chunk list, for
non-negative byte bounds. -/
lemma loadChunksLoop_chunkEntryLines :
    ∀ (l : List (List Char × Int × Int)) (k : Nat),
      (∀ e ∈ l, 0 ≤ e.2.1 ∧ 0 ≤ e.2.2) →
      loadChunksLoop ((l.enumFrom k).flatMap chunkEntryLines) = .ok l := by
  intro l
  induction l with
  | nil => intro k _; rfl
  | cons e rest ih =>
    intro k h
    obtain ⟨ha, hb⟩ := h e (List.mem_cons_self e rest)
    have htail := ih (k + 1) (fun x hx => h x (List.mem_cons_of_mem e hx))
    show loadChunksLoop
        (('#' :: natChars k ++ [':', '\n'])
          :: ('\t' :: "name:".data ++ e.1 ++ ['\n'])
          :: ('\t' :: "range:".data ++ intChars e.2.1 ++ ['-'] ++ intChars e.2.2 ++ ['\n'])
          :: (rest.enumFrom (k + 1)).flatMap chunkEntryLines) = .ok (e :: rest)
    rw [loadChunksLoop]
    rw [if_neg (by simp)]
    have h1 : pySub1m1 ('\t' :: "name:".data ++ e.1 ++ ['\n'])
        = "name:".data ++ e.1 := by
      rw [show ('\t' :: "name:".data ++ e.1 ++ ['\n'])
          = '\t' :: (("name:".data ++ e.1) ++ ['\n']) from by simp]
      exact pySub1m1_concat _ _ _
    have h2 : pySub1m1 ('\t' :: "range:".data ++ intChars e.2.1 ++ ['-'] ++ intChars e.2.2 ++ ['\n'])
        = "range:".data ++ (intChars e.2.1 ++ '-' :: intChars e.2.2) := by
      rw [show ('\t' :: "range:".data ++ intChars e.2.1 ++ ['-'] ++ intChars e.2.2 ++ ['\n'])
          = '\t' :: (("range:".data ++ (intChars e.2.1 ++ '-' :: intChars e.2.2)) ++ ['\n']) from by simp]
      exact pySub1m1_concat _ _ _
    rw [loadChunkEntry]
    simp only [h1, h2]
    rw [if_pos (by
      rw [Bool.and_eq_true]
      exact ⟨isPrefixOf_append _ _, isPrefixOf_append _ _⟩)]
    rw [drop6_range_tag, splitOnDash_append _ _ (intChars_nonneg_no_dash _ ha),
      splitOnDash_no_dash _ (intChars_nonneg_no_dash _ hb)]
    simp only [List.get?]
    rw [show (do
        let a ← pyInt (intChars e.2.1)
        let b ← pyInt (intChars e.2.2)
        let t ← loadChunksLoop ((rest.enumFrom (k + 1)).flatMap chunkEntryLines)
        pure ((("name:".data ++ e.1).drop 5, a, b) :: t)
        : Except PyErr (List (List Char × Int × Int)))
      = .ok ((("name:".data ++ e.1).drop 5, e.2.1, e.2.2) :: rest) from by
        rw [pyInt_intChars_nonneg _ ha, pyInt_intChars_nonneg _ hb, htail]; rfl]
    rw [drop5_name_tag]

/-- Claim C8, counterexample: a `ChunkInfo` meeting every stated
hypothesis (newline-free names, non-negative size, integer bounds) whose
first chunk bound is the integer `-1` does not round-trip: the written
range line `range:-1-0` is split on `"-"` into `["", "1", "0"]` and
`int("")` raises `ValueError` in `load`. -/
theorem save_load_roundtrip_counterexample :
    ChunkInfo.load (ChunkInfo.save ⟨"f".data, 0, false, [("f0".data, (-1, 0))]⟩)
      = .error .valueError
    ∧ ('\n' ∉ ("f".data : List Char)) ∧ ('\n' ∉ ("f0".data : List Char))
    ∧ (0 : Int) ≤ 0 :=
  ⟨rfl, by decide, by decide, by decide⟩

/-- Claim C8, amended: for every `ChunkInfo` with newline-free name,
non-negative integer size, and chunks with newline-free names and
*non-negative* integer bounds, `load` after `save` recovers the same
name, size, and chunk list (the transient `resume` flag is reset by the
`ChunkInfo` constructor that `load` uses). -/
theorem save_load_roundtrip (ci : ChunkInfo)
    (hname : '\n' ∉ ci.name) (hsize : 0 ≤ ci.size)
    (hchunks : ∀ e ∈ ci.chunks, '\n' ∉ e.1 ∧ 0 ≤ e.2.1 ∧ 0 ≤ e.2.2) :
    ChunkInfo.load (ChunkInfo.save ci)
      = .ok { name := ci.name, size := ci.size, resume := false, chunks := ci.chunks } := by
  rw [ChunkInfo.save, ChunkInfo.load]
  have h1 : pySub1 ((("name:".data ++ ci.name ++ ['\n'])
      :: ("size:".data ++ intChars ci.size ++ ['\n'])
      :: ci.chunks.enum.flatMap chunkEntryLines).headD []) = "name:".data ++ ci.name := by
    rw [List.headD_cons,
      show ("name:".data ++ ci.name ++ ['\n']) = ("name:".data ++ ci.name) ++ ['\n'] from by simp]
    exact pySub1_concat _ _
  have h2 : pySub1 (((("name:".data ++ ci.name ++ ['\n'])
      :: ("size:".data ++ intChars ci.size ++ ['\n'])
      :: ci.chunks.enum.flatMap chunkEntryLines).drop 1).headD [])
      = "size:".data ++ intChars ci.size := by
    rw [List.drop_one, List.tail_cons, List.headD_cons,
      show ("size:".data ++ intChars ci.size ++ ['\n']) = ("size:".data ++ intChars ci.size) ++ ['\n'] from by simp]
    exact pySub1_concat _ _
  simp only [h1, h2]
  rw [if_pos (by
    rw [Bool.and_eq_true]
    exact ⟨isPrefixOf_append _ _, isPrefixOf_append _ _⟩)]
  rw [show (("name:".data ++ ci.name ++ ['\n'])
      :: ("size:".data ++ intChars ci.size ++ ['\n'])
      :: ci.chunks.enum.flatMap chunkEntryLines).drop 2
    = ci.chunks.enum.flatMap chunkEntryLines from rfl]
  rw [show ci.chunks.enum = ci.chunks.enumFrom 0 from rfl]
  rw [drop5_size_tag]
  rw [show (do
      let size ← pyInt (intChars ci.size)
      let chunks ← loadChunksLoop ((ci.chunks.enumFrom 0).flatMap chunkEntryLines)
      pure { name := ("name:".data ++ ci.name).drop 5, size := size, resume := false,
             chunks := chunks : ChunkInfo }
      : Except PyErr ChunkInfo)
    = .ok { name := ("name:".data ++ ci.name).drop 5, size := ci.size, resume := false,
            chunks := ci.chunks } from by
      rw [pyInt_intChars_nonneg _ hsize,
        loadChunksLoop_chunkEntryLines ci.chunks 0 (fun e he => (hchunks e he).2)]
      rfl]
  rw [drop5_name_tag]

/-- Witness for `save_load_roundtrip` on a concrete two-chunk record. -/
theorem save_load_roundtrip_witness :
    ChunkInfo.load (ChunkInfo.save ⟨"f".data, 12, true, [("f.chunk0".data, (0, 6)), ("f.chunk1".data, (7, 11))]⟩)
      = .ok ⟨"f".data, 12, false, [("f.chunk0".data, (0, 6)), ("f.chunk1".data, (7, 11))]⟩ :=
  save_load_roundtrip _ (by decide) (by decide) (by decide)

/-! ### Captcha broker (captcha_manager.py)

Wall-clock time is a parameter `now : Int`; `time.time() + sec` becomes
`now + sec`.  Addon plugins offered a task through the `newCaptchaTask`
hook are modelled by functions returning the updated handler list (the
hook's documented effect is registering the plugin as a handler) or
`none` when the hook raises, which `handleCaptcha` swallows. -/

/-- `CaptchaTask.__init__` state (captcha_manager.py lines 68-79). -/
structure CaptchaTask where
  id : String
  captchaParams : String
  captchaFormat : String
  captchaResultType : String
  handler : List String
  result : Option String
  waitUntil : Option Int
  error : Option String
  status : String
  data : List (String × String)
  deriving DecidableEq

/-- `CaptchaTask(id, format, params, result_type)`: `id` is stringified,
`handler` empty, `waitUntil`/`error`/`result` are `None`, status `init`. -/
def CaptchaTask.new (id : Nat) (format params result_type : String) : CaptchaTask :=
  { id := toString id, captchaParams := params, captchaFormat := format,
    captchaResultType := result_type, handler := [], result := none,
    waitUntil := none, error := none, status := "init", data := [] }

/-- `CaptchaTask.setWaiting` (lines 101-106):
`self.waitUntil = max(time.time() + sec, self.waitUntil)`.  When
`waitUntil` is still `None` (as `__init__` leaves it), Python 3 raises
`TypeError` on the `float`/`None` comparison inside `max`. -/
def CaptchaTask.setWaiting (t : CaptchaTask) (now sec : Int) : Except PyErr CaptchaTask :=
  match t.waitUntil with
  | none => .error .typeError
  | some w => .ok { t with waitUntil := some (max (now + sec) w), status := "waiting" }

/-- `CaptchaTask.setWatingForUser` (lines 132-136). -/
def CaptchaTask.setWatingForUser (t : CaptchaTask) (exclusive : Bool) : CaptchaTask :=
  { t with status := if exclusive then "user" else "shared-user" }

/-- `CaptchaManager` state: the outgoing task store and the id counter
(captcha_manager.py lines 11-18). -/
structure CaptchaManager where
  tasks : List CaptchaTask
  ids : Nat
  deriving DecidableEq

/-- `CaptchaManager.newTask` (lines 20-23). -/
def CaptchaManager.newTask (m : CaptchaManager) (format params result_type : String) :
    CaptchaTask × CaptchaManager :=
  (CaptchaTask.new m.ids format params result_type, { m with ids := m.ids + 1 })

/-- Python `list.remove`: drop the first equal element, if any
(`CaptchaManager.removeTask`, lines 25-28). -/
def removeFirst : List CaptchaTask → CaptchaTask → List CaptchaTask
  | [], _ => []
  | x :: xs, a => if x = a then xs else x :: removeFirst xs a

/-- `CaptchaManager.removeTask` (lines 25-28). -/
def CaptchaManager.removeTask (m : CaptchaManager) (t : CaptchaTask) : CaptchaManager :=
  { m with tasks := removeFirst m.tasks t }

/-- `CaptchaManager.getTask` (lines 30-35): first task whose status is
`waiting` or `shared-user`. -/
def CaptchaManager.getTask (m : CaptchaManager) : Option CaptchaTask :=
  m.tasks.find? (fun t => t.status == "waiting" || t.status == "shared-user")

/-- `CaptchaManager.getTaskByID` (lines 37-42): linear scan comparing the
stored string id with `str(tid)`. -/
def CaptchaManager.getTaskByID (m : CaptchaManager) (tid : Nat) : Option CaptchaTask :=
  m.tasks.find? (fun t => t.id == toString tid)

/-- The `for plugin in activePlugins(): plugin.newCaptchaTask(task)` loop
of `handleCaptcha` (lines 52-56): each hook may register handlers;
exceptions (`none`) are swallowed, leaving the task unchanged. -/
def offerTask (plugins : List (CaptchaTask → Option (List String)))
    (t : CaptchaTask) : CaptchaTask :=
  plugins.foldl (fun t p => match p t with
    | some h => { t with handler := h }
    | none => t) t

/-- `CaptchaManager.handleCaptcha` (lines 44-64): `setWaiting(timeout)`,
offer to the active plugins, then enqueue iff a handler attached or a
client is connected (`cli = isClientConnected()`); otherwise set the
no-client error and drop the task.  Returns the Python return value
together with the final task value and manager state. -/
def CaptchaManager.handleCaptcha (m : CaptchaManager) (cli : Bool)
    (plugins : List (CaptchaTask → Option (List String))) (now : Int)
    (task : CaptchaTask) (timeout : Int) :
    Except PyErr (Bool × CaptchaTask × CaptchaManager) := do
  let task ← task.setWaiting now timeout
  let task := offerTask plugins task
  if !task.handler.isEmpty || cli then
    pure (true, task, { m with tasks := m.tasks ++ [task] })
  else
    pure (false, { task with error := some "No Client connected for captcha decrypting" }, m)

/-- Claim C3 (code bug): on a freshly created task — whose `waitUntil` is
`None` — `handleCaptcha` does not set `waitUntil` and `status`: it raises
`TypeError` inside `setWaiting`'s `max(time.time() + sec, None)`.  Shown
here at a concrete fresh task for any of the states reached: both the
`setWaiting` call and the whole `handleCaptcha` call error. -/
theorem handleCaptcha_fresh_task_raises :
    (CaptchaTask.new 0 "image" "p" "textual").setWaiting 1000 120 = .error .typeError
    ∧ CaptchaManager.handleCaptcha ⟨[], 1⟩ false [] 1000
        (CaptchaTask.new 0 "image" "p" "textual") 120 = .error .typeError
    ∧ CaptchaManager.handleCaptcha ⟨[], 1⟩ true [] 1000
        (CaptchaTask.new 0 "image" "p" "textual") 120 = .error .typeError :=
  ⟨rfl, rfl, rfl⟩

/-- Claim C4, counterexample: for a freshly created task (`waitUntil =
None`) with no addon and no client, `handleCaptcha` neither returns
`False` nor sets `task.error`: it raises `TypeError` before the task is
offered to any plugin. -/
theorem handleCaptcha_dispatch_counterexample :
    CaptchaManager.handleCaptcha ⟨[], 1⟩ false [] 0
      (CaptchaTask.new 0 "img" "" "textual") 30 = .error .typeError :=
  rfl

/-- Claim C4, amended: for every task whose `waitUntil` is already set
(not `None`) the claimed dispatch holds: after the plugins are offered
the task, it is enqueued and `True` is returned iff the handler list is
non-empty or a client is connected; otherwise the manager is unchanged,
the no-client error is set, and `False` is returned. -/
theorem handleCaptcha_dispatch (m : CaptchaManager) (cli : Bool)
    (plugins : List (CaptchaTask → Option (List String))) (now : Int)
    (task : CaptchaTask) (timeout w : Int) (h : task.waitUntil = some w) :
    ∃ b t',
      m.handleCaptcha cli plugins now task timeout
        = .ok (b, t', if b then { m with tasks := m.tasks ++ [t'] } else m)
      ∧ (b = true ↔ (t'.handler ≠ [] ∨ cli = true))
      ∧ (b = false → t'.error = some "No Client connected for captcha decrypting") := by
  rw [CaptchaManager.handleCaptcha, CaptchaTask.setWaiting, h]
  set t1 := offerTask plugins
    { task with waitUntil := some (max (now + timeout) w), status := "waiting" } with ht1
  by_cases hb : (!t1.handler.isEmpty || cli) = true
  · refine ⟨true, t1, ?_, ?_, ?_⟩
    · show (do
        let task := t1
        if !task.handler.isEmpty || cli then
          pure (true, task, { m with tasks := m.tasks ++ [task] })
        else
          pure (false, { task with error := some "No Client connected for captcha decrypting" }, m)
        : Except PyErr (Bool × CaptchaTask × CaptchaManager)) = _
      rw [if_pos hb]
      rfl
    · simp only [true_iff]
      rcases Bool.or_eq_true_iff.mp hb with h | h
      · exact Or.inl (fun hnil => by simp [hnil] at h)
      · exact Or.inr h
    · intro h'; cases h'
  · refine ⟨false, { t1 with error := some "No Client connected for captcha decrypting" }, ?_, ?_, ?_⟩
    · show (do
        let task := t1
        if !task.handler.isEmpty || cli then
          pure (true, task, { m with tasks := m.tasks ++ [task] })
        else
          pure (false, { task with error := some "No Client connected for captcha decrypting" }, m)
        : Except PyErr (Bool × CaptchaTask × CaptchaManager)) = _
      rw [if_neg hb]
      rfl
    · constructor
      · intro h'; cases h'
      · intro h'
        exfalso
        apply hb
        rw [Bool.or_eq_true_iff]
        rcases h' with h' | h'
        · exact Or.inl (by simpa using h')
        · exact Or.inr h'
    · intro _; rfl

/-- Witness for `handleCaptcha_dispatch`: a task with `waitUntil` already
set, a connected client and no plugins. -/
theorem handleCaptcha_dispatch_witness :
    ∃ b t',
      CaptchaManager.handleCaptcha ⟨[], 1⟩ true [] 100
          { CaptchaTask.new 0 "f" "p" "textual" with waitUntil := some 5 } 30
        = .ok (b, t', if b then { (⟨[], 1⟩ : CaptchaManager) with
            tasks := (⟨[], 1⟩ : CaptchaManager).tasks ++ [t'] } else ⟨[], 1⟩)
      ∧ (b = true ↔ (t'.handler ≠ [] ∨ true = true))
      ∧ (b = false → t'.error = some "No Client connected for captcha decrypting") :=
  handleCaptcha_dispatch ⟨[], 1⟩ true [] 100
    { CaptchaTask.new 0 "f" "p" "textual" with waitUntil := some 5 } 30 5 rfl

lemma offerTask_status (plugins : List (CaptchaTask → Option (List String))) :
    ∀ t : CaptchaTask, (offerTask plugins t).status = t.status := by
  induction plugins with
  | nil => intro t; rfl
  | cons p ps ih =>
    intro t
    show (offerTask ps (match p t with
      | some h => { t with handler := h }
      | none => t)).status = t.status
    rw [ih]
    cases p t <;> rfl

lemma removeFirst_subset (l : List CaptchaTask) (a t : CaptchaTask)
    (h : t ∈ removeFirst l a) : t ∈ l := by
  induction l with
  | nil => simpa [removeFirst] using h
  | cons x xs ih =>
    rw [removeFirst] at h
    by_cases hx : x = a
    · rw [if_pos hx] at h
      exact List.mem_cons_of_mem x h
    · rw [if_neg hx] at h
      rcases List.mem_cons.mp h with h | h
      · exact h ▸ List.mem_cons_self x xs
      · exact List.mem_cons_of_mem x (ih h)

/-- The broker-state mutations visible in this repository: `newTask`
(plugins create tasks), a completed `handleCaptcha` call (may append the
task), the api's `getCaptchaTask` calling `setWatingForUser` on a task
returned by `getTask` (api/__init__.py line 997; the in-place mutation is
modelled by replacing equal list entries), and `removeTask` (api
`setCaptchaResult`, line 1028, also used for timeout removal). -/
inductive ManagerStep : CaptchaManager → CaptchaManager → Prop
  | newTask (m : CaptchaManager) (format params result_type : String) :
      ManagerStep m ((m.newTask format params result_type).2)
  | handle (m : CaptchaManager) (cli : Bool)
      (plugins : List (CaptchaTask → Option (List String))) (now : Int)
      (task : CaptchaTask) (timeout : Int) (b : Bool) (t' : CaptchaTask)
      (m' : CaptchaManager) :
      m.handleCaptcha cli plugins now task timeout = .ok (b, t', m') →
      ManagerStep m m'
  | waitForUser (m : CaptchaManager) (exclusive : Bool) (t : CaptchaTask) :
      m.getTask = some t →
      ManagerStep m
        { m with tasks := m.tasks.map (fun x => if x = t then x.setWatingForUser exclusive else x) }
  | remove (m : CaptchaManager) (t : CaptchaTask) :
      ManagerStep m (m.removeTask t)

/-- Broker states reachable from the initial empty manager. -/
inductive ManagerReachable : CaptchaManager → Prop
  | init : ManagerReachable ⟨[], 0⟩
  | step {m m' : CaptchaManager} :
      ManagerReachable m → ManagerStep m m' → ManagerReachable m'

/-- Every task ever stored in the broker list has status `waiting`,
`user` or `shared-user`: `handleCaptcha` appends only after `setWaiting`,
and `setWatingForUser` keeps the status in this set. -/
lemma reachable_task_status (m : CaptchaManager) (h : ManagerReachable m) :
    ∀ t ∈ m.tasks, t.status ∈ (["waiting", "user", "shared-user"] : List String) := by
  induction h with
  | init => intro t ht; simp at ht
  | @step m m' _ hs ih =>
    intro t ht
    cases hs with
    | newTask format params result_type =>
      exact ih t ht
    | handle cli plugins now task timeout b t' m₂ heq =>
      cases hw : task.waitUntil with
      | none =>
        rw [CaptchaManager.handleCaptcha, CaptchaTask.setWaiting, hw] at heq
        exact Except.noConfusion heq
      | some w =>
        rw [CaptchaManager.handleCaptcha, CaptchaTask.setWaiting, hw] at heq
        have heq' : (if (!(offerTask plugins { task with
              waitUntil := some (max (now + timeout) w), status := "waiting" }).handler.isEmpty || cli) = true then
            Except.ok (true, offerTask plugins { task with
              waitUntil := some (max (now + timeout) w), status := "waiting" },
              { m with tasks := m.tasks ++ [offerTask plugins { task with
                waitUntil := some (max (now + timeout) w), status := "waiting" }] })
          else
            Except.ok (false, { offerTask plugins { task with
                waitUntil := some (max (now + timeout) w), status := "waiting" } with
              error := some "No Client connected for captcha decrypting" }, m)
          : Except PyErr (Bool × CaptchaTask × CaptchaManager)) = .ok (b, t', m') := heq
        split at heq'
        · cases heq'
          rcases List.mem_append.mp ht with hmem | hmem
          · exact ih t hmem
          · rcases List.mem_singleton.mp hmem with rfl
            have := offerTask_status plugins { task with
              waitUntil := some (max (now + timeout) w), status := "waiting" }
            simp [this]
        · cases heq'
          exact ih t ht
    | waitForUser exclusive t₀ hget =>
      rcases List.mem_map.mp ht with ⟨x, hx, hfx⟩
      by_cases hxt : x = t₀
      · rw [if_pos hxt] at hfx
        rw [← hfx, CaptchaTask.setWatingForUser]
        cases exclusive <;> simp
      · rw [if_neg hxt] at hfx
        exact hfx ▸ ih x hx
    | remove t₀ =>
      exact ih t (removeFirst_subset _ t₀ t ht)

/-- Claim C5, counterexample: the claimed equivalence fails in the
"if" direction.  In the reachable state right after `newTask` the fresh
task has status `init` — not in {done, error, timed-out} — yet
`getTaskByID` does not return it, because `handleCaptcha` never enqueued
it. -/
theorem getTaskByID_iff_counterexample :
    ManagerReachable ⟨[], 1⟩
    ∧ (CaptchaTask.new 0 "c" "" "textual").status ∉ (["done", "error", "timed-out"] : List String)
    ∧ CaptchaManager.getTaskByID ⟨[], 1⟩ 0 = none :=
  ⟨ManagerReachable.step ManagerReachable.init (ManagerStep.newTask ⟨[], 0⟩ "c" "" "textual"),
   by decide, rfl⟩

/-- Claim C5, amended: in every reachable broker state, a task returned
by `getTaskByID` has status `waiting`, `user` or `shared-user`, hence is
never in {done, error, timed-out}.  The converse of the claim fails (a
fresh `init` task was never enqueued, and a dropped no-client task is
unreachable), and `getTaskByID` does not consult `waitUntil`, so a task
whose deadline has passed stays reachable until it is removed. -/
theorem getTaskByID_status (m : CaptchaManager) (h : ManagerReachable m)
    (tid : Nat) (t : CaptchaTask) (ht : m.getTaskByID tid = some t) :
    t.status ∈ (["waiting", "user", "shared-user"] : List String)
    ∧ t.status ∉ (["done", "error", "timed-out"] : List String) := by
  have hmem : t ∈ m.tasks := List.mem_of_find?_eq_some ht
  have h1 := reachable_task_status m h t hmem
  refine ⟨h1, ?_⟩
  intro hcon
  simp only [List.mem_cons, List.mem_singleton, List.not_mem_nil, or_false] at h1 hcon
  rcases h1 with h1 | h1 | h1 <;> rcases hcon with hc | hc | hc <;>
    · rw [h1] at hc
      exact absurd hc (by decide)

/-- Witness for `getTaskByID_status` at the reachable state produced by a
successful `handleCaptcha` enqueue. -/
theorem getTaskByID_status_witness :
    (⟨"0", "p", "f", "textual", [], none, some 10, none, "waiting", []⟩ : CaptchaTask).status
      ∈ (["waiting", "user", "shared-user"] : List String)
    ∧ (⟨"0", "p", "f", "textual", [], none, some 10, none, "waiting", []⟩ : CaptchaTask).status
      ∉ (["done", "error", "timed-out"] : List String) := by
  have hr : ManagerReachable
      ⟨[⟨"0", "p", "f", "textual", [], none, some 10, none, "waiting", []⟩], 0⟩ :=
    ManagerReachable.step ManagerReachable.init
      (ManagerStep.handle ⟨[], 0⟩ true [] 0
        { CaptchaTask.new 0 "f" "p" "textual" with waitUntil := some 0 } 10
        true ⟨"0", "p", "f", "textual", [], none, some 10, none, "waiting", []⟩
        ⟨[⟨"0", "p", "f", "textual", [], none, some 10, none, "waiting", []⟩], 0⟩ rfl)
  exact getTaskByID_status _ hr 0
    ⟨"0", "p", "f", "textual", [], none, some 10, none, "waiting", []⟩ rfl

/-! ### Thread manager info cache (thread_manager.py) and Api.pollResults

Python dicts are association lists with unique keys; `d[k] = v` replaces
the value in place or appends, `d.update(delta)` folds the assignments,
`del d[k]` filters the key out, `k in d` is `dictContains`.  Wall-clock
time is a parameter `now`; `timedelta(minutes=5).seconds` is `300`. -/

/-- Python `k in d`. -/
def dictContains [BEq κ] (d : List (κ × ν)) (k : κ) : Bool :=
  d.any (fun p => p.1 == k)

/-- Python `d[k]` as an option (`none` models `KeyError`). -/
def dictGet? [BEq κ] (d : List (κ × ν)) (k : κ) : Option ν :=
  (d.find? (fun p => p.1 == k)).map Prod.snd

/-- Python `d[k] = v`. -/
def dictSet [BEq κ] (d : List (κ × ν)) (k : κ) (v : ν) : List (κ × ν) :=
  if dictContains d k then d.map (fun p => if p.1 == k then (k, v) else p)
  else d ++ [(k, v)]

/-- Python `d.update(delta)`. -/
def dictUpdate [BEq κ] (d delta : List (κ × ν)) : List (κ × ν) :=
  delta.foldl (fun d p => dictSet d p.1 p.2) d

/-- Python `del d[k]`. -/
def dictDel [BEq κ] (d : List (κ × ν)) (k : κ) : List (κ × ν) :=
  d.filter (fun p => !(p.1 == k))

/-- The `ThreadManager` fields the info-cache claims touch
(thread_manager.py lines 48-56): `infoResults` maps result ids to
buckets of partial online-check results, `resultIDs` is the id pool,
`timestamp` the purge deadline, `infoCache` the url-info cache. -/
structure TMState where
  infoResults : List (Nat × List (String × String))
  resultIDs : Nat
  timestamp : Int
  infoCache : List (String × String)
  deriving DecidableEq

/-- `ThreadManager.createResultThread` (lines 79-91): refresh the purge
deadline, hand out `resultIDs` and bump it (the spawned `InfoThread` is
outside the model). -/
def ThreadManager.createResultThread (now : Int) (st : TMState) : Nat × TMState :=
  let st := { st with timestamp := now + 300 }
  (st.resultIDs, { st with resultIDs := st.resultIDs + 1 })

/-- `ThreadManager.getInfoResult` (lines 93-105): refresh the purge
deadline; if `rid` is a key, return its bucket and replace it with an
empty one, otherwise return an empty dict. -/
def ThreadManager.getInfoResult (now : Int) (st : TMState) (rid : Nat) :
    List (String × String) × TMState :=
  let st := { st with timestamp := now + 300 }
  if dictContains st.infoResults rid then
    ((dictGet? st.infoResults rid).getD [],
     { st with infoResults := dictSet st.infoResults rid [] })
  else ([], st)

/-- `ThreadManager.setInfoResults` (lines 107-109):
`self.infoResults[rid].update(result)` — a `KeyError` when `rid` is not a
current key; the purge deadline is *not* refreshed. -/
def ThreadManager.setInfoResults (st : TMState) (rid : Nat)
    (result : List (String × String)) : Except PyErr TMState :=
  match dictGet? st.infoResults rid with
  | none => .error .keyError
  | some bucket =>
      .ok { st with infoResults := dictSet st.infoResults rid (dictUpdate bucket result) }

/-- `Api.pollResults` (api/__init__.py lines 495-509): fetch and clear
the bucket, strip the `ALL_INFO_FETCHED` sentinel, and return result id
`-1` exactly when the sentinel was present. -/
def Api.pollResults (now : Int) (st : TMState) (rid : Nat) :
    (Int × List (String × String)) × TMState :=
  let r := ThreadManager.getInfoResult now st rid
  if dictContains r.1 "ALL_INFO_FETCHED" then
    ((-1, dictDel r.1 "ALL_INFO_FETCHED"), r.2)
  else (((rid : Int), r.1), r.2)

/-- The cache-expiry step at the end of `ThreadManager.run` (lines
156-159): flush both caches when one is non-empty and the deadline
passed. -/
def ThreadManager.runExpiry (now : Int) (st : TMState) : TMState :=
  if (st.infoCache ≠ [] ∨ st.infoResults ≠ []) ∧ st.timestamp < now then
    { st with infoCache := [], infoResults := [] }
  else st

/-- The control flow of one `ThreadManager.run` tick (lines 127-159).
`tryReconnect` sits in a `try/except` that logs and clears the reconnect
flag, so its outcome (the `reconnect` argument) never influences the
tick; `checkThreadCount` resizes the worker pool and does not touch the
cache.  The first `assignJob` is guarded by `try/except` (log, sleep 0.5
s); the retry on line 153 is *not* guarded, so its exception propagates
and the expiry step is skipped.  Returns the post-tick state and the
number of `assignJob` calls made. -/
def ThreadManager.run (reconnect : Except PyErr Unit)
    (assign : Nat → Except PyErr Unit) (now : Int) (st : TMState) :
    Except PyErr (TMState × Nat) :=
  match assign 0 with
  | .ok _ => .ok (ThreadManager.runExpiry now st, 1)
  | .error _ =>
    match assign 1 with
    | .ok _ => .ok (ThreadManager.runExpiry now st, 2)
    | .error e => .error e

lemma dictContains_false_get? [BEq κ] (d : List (κ × ν)) (k : κ)
    (h : dictContains d k = false) : dictGet? d k = none := by
  rw [dictGet?, List.find?_eq_none.mpr, Option.map_none']
  intro x hx hpx
  have hmem : dictContains d k = true := by
    rw [dictContains, List.any_eq_true]
    exact ⟨x, hx, hpx⟩
  rw [h] at hmem
  exact absurd hmem (by decide)

lemma dictContains_dictDel [BEq κ] (d : List (κ × ν)) (k : κ) :
    dictContains (dictDel d k) k = false := by
  by_contra h
  have h' : dictContains (dictDel d k) k = true := by
    cases hb : dictContains (dictDel d k) k
    · exact absurd hb h
    · rfl
  rw [dictContains, List.any_eq_true] at h'
  obtain ⟨x, hx, hpx⟩ := h'
  rw [dictDel, List.mem_filter] at hx
  rw [hpx] at hx
  exact absurd hx.2 (by decide)

lemma dictGet?_dictSet_self [BEq κ] [LawfulBEq κ] (d : List (κ × ν)) (k : κ) (v : ν)
    (h : dictContains d k = true) : dictGet? (dictSet d k v) k = some v := by
  rw [dictSet, if_pos h]
  induction d with
  | nil => rw [dictContains] at h; simp at h
  | cons p ps ih =>
    by_cases hk : (p.1 == k) = true
    · rw [dictGet?]
      rw [show (p :: ps).map (fun p => if p.1 == k then (k, v) else p)
          = (k, v) :: ps.map (fun p => if p.1 == k then (k, v) else p) from by
        rw [List.map_cons, if_pos hk]]
      rw [List.find?_cons_of_pos _ (by simp)]
      rfl
    · have hps : dictContains ps k = true := by
        rw [dictContains] at h ⊢
        rw [List.any_cons] at h
        rcases Bool.or_eq_true_iff.mp h with h | h
        · exact absurd h hk
        · exact h
      have := ih hps
      rw [dictGet?] at this ⊢
      rw [show (p :: ps).map (fun p => if p.1 == k then (k, v) else p)
          = p :: ps.map (fun p => if p.1 == k then (k, v) else p) from by
        rw [List.map_cons, if_neg hk]]
      rw [List.find?_cons_of_neg _ (by simp [hk]), this]

/-- Claim C9, confirmed: `pollResults` never returns the sentinel key;
it returns result id `-1` exactly when the stored bucket held the
sentinel at retrieval time, and the passed `rid` itself when it did not;
and retrieval empties the stored bucket. -/
lemma getInfoResult_pos (now : Int) (st : TMState) (rid : Nat)
    (hc : dictContains st.infoResults rid = true) :
    ThreadManager.getInfoResult now st rid
      = ((dictGet? st.infoResults rid).getD [],
         { st with timestamp := now + 300, infoResults := dictSet st.infoResults rid [] }) := by
  simp only [ThreadManager.getInfoResult]
  rw [if_pos hc]

lemma getInfoResult_neg (now : Int) (st : TMState) (rid : Nat)
    (hc : dictContains st.infoResults rid = false) :
    ThreadManager.getInfoResult now st rid = ([], { st with timestamp := now + 300 }) := by
  simp only [ThreadManager.getInfoResult]
  rw [if_neg (by rw [hc]; exact Bool.false_ne_true)]

theorem pollResults_spec (now : Int) (st : TMState) (rid : Nat) :
    dictContains (Api.pollResults now st rid).1.2 "ALL_INFO_FETCHED" = false
    ∧ ((Api.pollResults now st rid).1.1 = -1
        ↔ dictContains ((dictGet? st.infoResults rid).getD []) "ALL_INFO_FETCHED" = true)
    ∧ (dictContains ((dictGet? st.infoResults rid).getD []) "ALL_INFO_FETCHED" = false →
        (Api.pollResults now st rid).1.1 = (rid : Int))
    ∧ (dictContains st.infoResults rid = true →
        dictGet? (Api.pollResults now st rid).2.infoResults rid = some []) := by
  by_cases hc : dictContains st.infoResults rid = true
  · have hr := getInfoResult_pos now st rid hc
    by_cases hs : dictContains ((dictGet? st.infoResults rid).getD []) "ALL_INFO_FETCHED" = true
    · have hp : Api.pollResults now st rid
          = ((-1, dictDel ((dictGet? st.infoResults rid).getD []) "ALL_INFO_FETCHED"),
             { st with timestamp := now + 300, infoResults := dictSet st.infoResults rid [] }) := by
        simp only [Api.pollResults, hr]
        rw [if_pos hs]
      rw [hp]
      refine ⟨dictContains_dictDel _ _, by simp [hs], ?_, ?_⟩
      · intro hfalse
        rw [hs] at hfalse
        exact absurd hfalse (by decide)
      · intro _
        exact dictGet?_dictSet_self _ _ _ hc
    · have hp : Api.pollResults now st rid
          = (((rid : Int), (dictGet? st.infoResults rid).getD []),
             { st with timestamp := now + 300, infoResults := dictSet st.infoResults rid [] }) := by
        simp only [Api.pollResults, hr]
        rw [if_neg hs]
      rw [hp]
      refine ⟨by simpa using hs, ?_, ?_, ?_⟩
      · constructor
        · intro habs
          exfalso
          have h2 : (rid : Int) = -1 := habs
          omega
        · intro habs
          exact absurd habs hs
      · intro _
        rfl
      · intro _
        exact dictGet?_dictSet_self _ _ _ hc
  · have hc' : dictContains st.infoResults rid = false := by
      cases hb : dictContains st.infoResults rid
      · rfl
      · exact absurd hb hc
    have hbucket : (dictGet? st.infoResults rid).getD [] = ([] : List (String × String)) := by
      rw [dictContains_false_get? _ _ hc']
      rfl
    have hr := getInfoResult_neg now st rid hc'
    have hp : Api.pollResults now st rid
        = (((rid : Int), []), { st with timestamp := now + 300 }) := by
      simp only [Api.pollResults, hr]
      rw [if_neg (by decide)]
    rw [hp, hbucket]
    refine ⟨rfl, ?_, ?_, ?_⟩
    · constructor
      · intro habs
        exfalso
        have h2 : (rid : Int) = -1 := habs
        omega
      · intro habs
        exact absurd habs (by decide)
    · intro _
      rfl
    · intro habs
      exact absurd habs hc

/-- Witness for `pollResults_spec`: a bucket containing the sentinel. -/
theorem pollResults_spec_witness :
    dictContains (Api.pollResults 0 ⟨[(0, [("ALL_INFO_FETCHED", "1"), ("u", "ok")])], 1, 0, []⟩ 0).1.2
        "ALL_INFO_FETCHED" = false
    ∧ ((Api.pollResults 0 ⟨[(0, [("ALL_INFO_FETCHED", "1"), ("u", "ok")])], 1, 0, []⟩ 0).1.1 = -1
        ↔ dictContains ((dictGet? (⟨[(0, [("ALL_INFO_FETCHED", "1"), ("u", "ok")])], 1, 0, []⟩ : TMState).infoResults 0).getD [])
            "ALL_INFO_FETCHED" = true)
    ∧ (dictContains ((dictGet? (⟨[(0, [("ALL_INFO_FETCHED", "1"), ("u", "ok")])], 1, 0, []⟩ : TMState).infoResults 0).getD [])
          "ALL_INFO_FETCHED" = false →
        (Api.pollResults 0 ⟨[(0, [("ALL_INFO_FETCHED", "1"), ("u", "ok")])], 1, 0, []⟩ 0).1.1 = (0 : Int))
    ∧ (dictContains (⟨[(0, [("ALL_INFO_FETCHED", "1"), ("u", "ok")])], 1, 0, []⟩ : TMState).infoResults 0 = true →
        dictGet? (Api.pollResults 0 ⟨[(0, [("ALL_INFO_FETCHED", "1"), ("u", "ok")])], 1, 0, []⟩ 0).2.infoResults 0 = some []) :=
  pollResults_spec 0 ⟨[(0, [("ALL_INFO_FETCHED", "1"), ("u", "ok")])], 1, 0, []⟩ 0

/-- Claim C10, confirmed: merging into an absent result id raises
`KeyError` (the bucket is neither created nor the delta dropped silently),
while retrieving an absent id returns an empty dict and only refreshes
the timestamp. -/
theorem setInfoResults_requires_key (st : TMState) (rid : Nat)
    (delta : List (String × String)) (now : Int)
    (h : dictContains st.infoResults rid = false) :
    ThreadManager.setInfoResults st rid delta = .error .keyError
    ∧ ThreadManager.getInfoResult now st rid = ([], { st with timestamp := now + 300 }) := by
  constructor
  · rw [ThreadManager.setInfoResults, dictContains_false_get? _ _ h]
  · exact getInfoResult_neg now st rid h

/-- Witness for `setInfoResults_requires_key` on an absent id. -/
theorem setInfoResults_requires_key_witness :
    ThreadManager.setInfoResults ⟨[], 0, 0, []⟩ 7 [("u", "v")] = .error .keyError
    ∧ ThreadManager.getInfoResult 5 ⟨[], 0, 0, []⟩ 7
        = ([], { (⟨[], 0, 0, []⟩ : TMState) with timestamp := 5 + 300 }) :=
  setInfoResults_requires_key ⟨[], 0, 0, []⟩ 7 [("u", "v")] 5 rfl

/-- Claim C6, counterexample: `setInfoResults` (the merge) does not
refresh the purge deadline: on a state with deadline 10 the merge leaves
the deadline at 10, so the next tick at `now = 11` flushes the cache even
though a merge has just happened. -/
theorem setInfoResults_no_refresh_counterexample :
    ThreadManager.setInfoResults ⟨[(0, [])], 1, 10, []⟩ 0 [("u", "v")]
      = .ok ⟨[(0, [("u", "v")])], 1, 10, []⟩
    ∧ (⟨[(0, [("u", "v")])], 1, 10, []⟩ : TMState).timestamp
        = (⟨[(0, [])], 1, 10, []⟩ : TMState).timestamp
    ∧ ThreadManager.runExpiry 11 ⟨[(0, [("u", "v")])], 1, 10, []⟩ = ⟨[], 1, 10, []⟩ :=
  ⟨rfl, rfl, by decide⟩

/-- Claim C6, amended: probe creation and retrieval refresh the global
deadline to `now + 300`; the merge (`setInfoResults`) leaves it
unchanged.  The tick flushes nothing while `now ≤ timestamp` and clears
both caches once `timestamp < now` — hence only creation and retrieval,
not merges, postpone the flush. -/
theorem infoCache_timestamp_refresh (now : Int) (st : TMState) (rid : Nat)
    (delta : List (String × String)) :
    ((ThreadManager.createResultThread now st).2.timestamp = now + 300)
    ∧ ((ThreadManager.getInfoResult now st rid).2.timestamp = now + 300)
    ∧ (∀ st', ThreadManager.setInfoResults st rid delta = .ok st' →
        st'.timestamp = st.timestamp)
    ∧ (now ≤ st.timestamp → ThreadManager.runExpiry now st = st)
    ∧ (st.timestamp < now → (ThreadManager.runExpiry now st).infoResults = []
        ∧ (ThreadManager.runExpiry now st).infoCache = []) := by
  refine ⟨rfl, ?_, ?_, ?_, ?_⟩
  · cases hc : dictContains st.infoResults rid
    · rw [getInfoResult_neg now st rid hc]
    · rw [getInfoResult_pos now st rid hc]
  · intro st' h
    cases hg : dictGet? st.infoResults rid with
    | none =>
      rw [ThreadManager.setInfoResults, hg] at h
      exact Except.noConfusion h
    | some bucket =>
      rw [ThreadManager.setInfoResults, hg] at h
      cases h
      rfl
  · intro hle
    rw [ThreadManager.runExpiry, if_neg]
    rintro ⟨-, hlt⟩
    exact absurd hlt (not_lt.mpr hle)
  · intro hlt
    rw [ThreadManager.runExpiry]
    split
    · exact ⟨rfl, rfl⟩
    · next hcond =>
      constructor
      · by_contra hne
        exact hcond ⟨Or.inr hne, hlt⟩
      · by_contra hne
        exact hcond ⟨Or.inl hne, hlt⟩

/-- Witness for `infoCache_timestamp_refresh` at a concrete state whose
deadline has not yet passed. -/
theorem infoCache_timestamp_refresh_witness :
    (ThreadManager.createResultThread 49 ⟨[(3, [("a", "b")])], 4, 50, []⟩).2.timestamp = 49 + 300
    ∧ (ThreadManager.getInfoResult 49 ⟨[(3, [("a", "b")])], 4, 50, []⟩ 3).2.timestamp = 49 + 300
    ∧ (⟨[(3, [("a", "b"), ("x", "y")])], 4, 50, []⟩ : TMState).timestamp
        = (⟨[(3, [("a", "b")])], 4, 50, []⟩ : TMState).timestamp
    ∧ ThreadManager.runExpiry 49 ⟨[(3, [("a", "b")])], 4, 50, []⟩
        = ⟨[(3, [("a", "b")])], 4, 50, []⟩ := by
  have h := infoCache_timestamp_refresh 49 ⟨[(3, [("a", "b")])], 4, 50, []⟩ 3 [("x", "y")]
  exact ⟨h.1, h.2.1, h.2.2.1 ⟨[(3, [("a", "b"), ("x", "y")])], 4, 50, []⟩ rfl,
    h.2.2.2.1 (by decide)⟩

/-- Claim C7, counterexample: when the retried `assignJob` also raises,
the exception propagates out of `run` (the retry on thread_manager.py
line 153 is outside any `try`), so the tick aborts and the cache-expiry
step is skipped — here with a stale non-empty cache that the expiry step
would have flushed. -/
theorem run_retry_failure_aborts_tick :
    ThreadManager.run (.error .typeError) (fun _ => .error .valueError) 20
        ⟨[(0, [("u", "v")])], 1, 10, []⟩
      = .error .valueError
    ∧ ThreadManager.runExpiry 20 ⟨[(0, [("u", "v")])], 1, 10, []⟩ = ⟨[], 1, 10, []⟩ :=
  ⟨rfl, by decide⟩

/-- Claim C7, amended: if the first `assignJob` raises, `assignJob` is
called exactly once more within the same tick; the outcome never depends
on the reconnect step's failure; if the retry succeeds the tick completes
and the expiry step runs, but if the retry also raises, the exception
propagates and the expiry step is skipped. -/
theorem run_retry (reconnect reconnect' : Except PyErr Unit)
    (assign : Nat → Except PyErr Unit) (now : Int) (st : TMState) (e : PyErr)
    (h : assign 0 = .error e) :
    ThreadManager.run reconnect assign now st = ThreadManager.run reconnect' assign now st
    ∧ (assign 1 = .ok () → ThreadManager.run reconnect assign now st
        = .ok (ThreadManager.runExpiry now st, 2))
    ∧ (∀ e', assign 1 = .error e' → ThreadManager.run reconnect assign now st = .error e') := by
  refine ⟨rfl, ?_, ?_⟩
  · intro h1
    rw [ThreadManager.run, h, h1]
  · intro e' h1
    rw [ThreadManager.run, h, h1]

/-- Witness for `run_retry`: first assignment fails, retry succeeds, the
tick completes with two assignment calls. -/
theorem run_retry_witness :
    ThreadManager.run (.error .ioError)
        (fun n => if n = 0 then .error .typeError else .ok ()) 20 ⟨[], 0, 10, []⟩
      = .ok (ThreadManager.runExpiry 20 ⟨[], 0, 10, []⟩, 2) := by
  have h := run_retry (.error .ioError) (.ok ())
    (fun n => if n = 0 then .error .typeError else .ok ()) 20 ⟨[], 0, 10, []⟩ .typeError rfl
  exact h.2.1 rfl

end PyLoad
